import Mathlib

/-!
Shallow embedding of `src/prototype/speech/transcribe_streaming_infinite.py`
(resumable streaming transcription controller), together with theorems about
its bridging/replay computation, its per-result time correction, its
session-restart bookkeeping, and the audio buffer/queue handling.

Machine integers are modelled as `ℤ`/`ℕ`; the Python float expressions
(`STREAMING_LIMIT / len(...)`, the `round(...)` arguments) are modelled as
exact rationals `ℚ`, with Python 3 `round` (bankers' rounding) made explicit
as `pyRound`.
-/

/-- `STREAMING_LIMIT` (ms per recognition session), source line 28. -/
def STREAMING_LIMIT : ℕ := 10000

/-- `SAMPLE_RATE`, source line 29. -/
def SAMPLE_RATE : ℕ := 16000

/-- `CHUNK_SIZE` (frames per 100 ms chunk), source line 30. -/
def CHUNK_SIZE : ℕ := SAMPLE_RATE / 10

/-- An item of the chunk queue / audio buffers: `some c` is an audio chunk
(byte content abstracted as `ℕ`), `none` is the close sentinel that
`ResumableMicrophoneStream.__exit__` pushes (`self._buff.put(None)`). -/
abbrev Item := Option ℕ

/-- Python 3 `round` on an exact rational: round half to even. -/
def pyRound (x : ℚ) : ℤ :=
  if x - ⌊x⌋ < 1/2 then ⌊x⌋
  else if 1/2 < x - ⌊x⌋ then ⌊x⌋ + 1
  else if ⌊x⌋ % 2 = 0 then ⌊x⌋ else ⌊x⌋ + 1

/-- The two sequential clamping `if`s of `generator`, source lines 115-121:
`if bridging_offset < 0: bridging_offset = 0` followed by
`if bridging_offset > final_request_end_time: bridging_offset = final_request_end_time`. -/
def clampBridging (b f : ℤ) : ℤ :=
  let b1 := if b < 0 then 0 else b
  if b1 > f then f else b1

/-- `chunk_time = STREAMING_LIMIT / len(self.last_audio_input)`, source line 110. -/
def chunkTimeMs (lastAudio : List Item) : ℚ :=
  (STREAMING_LIMIT : ℚ) / (lastAudio.length : ℚ)

/-- The bridging computation of `generator`, source lines 110-133, run when a
new stream starts with a non-empty `last_audio_input`.  Inputs: the previous
session's captured chunks, `final_request_end_time` and the incoming
`bridging_offset`.  Output: the updated `bridging_offset`, `chunks_from_ms`,
and the replayed chunk list `last_audio_input[chunks_from_ms:]`.  When the
`chunk_time != 0` guard fails, nothing is updated and nothing is replayed
(the source leaves `chunks_from_ms` undefined there; we return 0). -/
def computeBridge (lastAudio : List Item) (f b0 : ℤ) : ℤ × ℤ × List Item :=
  let ct := chunkTimeMs lastAudio
  if ct = 0 then (b0, 0, [])
  else
    let b := clampBridging b0 f
    let cfm := pyRound (((f : ℚ) - (b : ℚ)) / ct)
    let b2 := pyRound (((lastAudio.length : ℚ) - (cfm : ℚ)) * ct)
    (b2, cfm, lastAudio.drop cfm.toNat)

/-- The mutable per-run state of `ResumableMicrophoneStream` (the fields the
controller and reconciler read/write; wall-clock `start_time` and the device
handles are outside the embedding). -/
structure StreamState where
  restart_counter : ℕ
  audio_input : List Item
  last_audio_input : List Item
  result_end_time : ℤ
  is_final_end_time : ℤ
  final_request_end_time : ℤ
  bridging_offset : ℤ
  last_transcript_was_final : Bool
  new_stream : Bool
deriving DecidableEq

/-- The state set up by `ResumableMicrophoneStream.__init__`, source lines 45-60. -/
def initialState : StreamState :=
  { restart_counter := 0
    audio_input := []
    last_audio_input := []
    result_end_time := 0
    is_final_end_time := 0
    final_request_end_time := 0
    bridging_offset := 0
    last_transcript_was_final := false
    new_stream := true }

/-- The head of a `generator` batch, source lines 103-135: when
`self.new_stream and self.last_audio_input`, run the bridging computation,
store the new `bridging_offset`, clear `new_stream`, and start `data` with the
replayed chunks; otherwise `data` starts empty. -/
def generatorHead (s : StreamState) : StreamState × List Item :=
  if s.new_stream ∧ s.last_audio_input ≠ [] then
    let r := computeBridge s.last_audio_input s.final_request_end_time s.bridging_offset
    ({ s with bridging_offset := r.1, new_stream := false }, r.2.2)
  else (s, [])

/-- One `get()` on the FIFO chunk queue (`six.moves.queue.Queue`): the queue
delivers items in push order; `none` as the *result option* means no item is
available, so a blocking `get()` blocks (and `get(block=False)` raises
`queue.Empty`).  Note the close sentinel is itself an `Item` (`Option.none`)
*inside* the returned pair. -/
def qpop : List Item → Option (Item × List Item)
  | [] => Option.none
  | x :: xs => some (x, xs)

/-- Outcome of one batch of the `generator` loop body, source lines 137-161. -/
inductive BatchResult where
  | yielded (audio_input : List Item) (data : List Item) (queue : List Item)
  | terminated (audio_input : List Item) (queue : List Item)
  | blocked
deriving DecidableEq

/-- The inner non-blocking drain of `generator`, source lines 148-159: pop
until the queue is empty (`queue.Empty` breaks, yielding the batch) or the
sentinel is popped (`return`, with the sentinel *not* appended to
`audio_input` since the `chunk is None` check there precedes the appends). -/
def drainBuffered (audio data q : List Item) : BatchResult :=
  match q with
  | [] => .yielded audio data []
  | Option.none :: rest => .terminated audio rest
  | some c :: rest => drainBuffered (audio ++ [some c]) (data ++ [some c]) rest

/-- One batch of the `generator` loop body, source lines 137-161: a blocking
`get()` whose result is appended to `audio_input` *before* the `None` check
(lines 140-144), then the non-blocking drain.  `audio`/`data` are the current
`self.audio_input` and the batch-local `data` list; `q` is the queue content. -/
def runBatch (audio data q : List Item) : BatchResult :=
  match q with
  | [] => .blocked
  | Option.none :: rest => .terminated (audio ++ [Option.none]) rest
  | some c :: rest => drainBuffered (audio ++ [some c]) (data ++ [some c]) rest

/-- One alternative of a recognition result (top transcript only is used). -/
structure RecAlternative where
  transcript : String
deriving DecidableEq

/-- One streaming recognition result: alternatives, `is_final`, and the
`result_end_time` protobuf duration split into seconds and nanos. -/
structure RecResult where
  alternatives : List RecAlternative
  is_final : Bool
  end_seconds : ℕ
  end_nanos : ℕ
deriving DecidableEq

/-- One streaming response: a list of results (only `results[0]` is used). -/
structure RecResponse where
  results : List RecResult
deriving DecidableEq

/-- A transcript entry as accumulated by `listen_print_loop`: the corrected
timestamp and the recognized text (the external translation collaborator is
the identity on the stored `input` text, which is what we keep). -/
structure Entry where
  time : ℤ
  text : String
deriving DecidableEq

/-- `int(result_seconds * 1000 + result_nanos / 1000000)`, source lines 212-223:
milliseconds of the result's session-relative end time (truncating division). -/
def resultEndTimeMs (r : RecResult) : ℤ :=
  ((r.end_seconds * 1000 + r.end_nanos / 1000000 : ℕ) : ℤ)

/-- The result/alternative actually processed from one response: `results[0]`
and its `alternatives[0]`, or nothing when either list is empty (the two
`continue`s at source lines 194 and 203). -/
def firstAlt (resp : RecResponse) : Option (RecResult × RecAlternative) :=
  match resp.results with
  | [] => Option.none
  | r :: _ =>
    match r.alternatives with
    | [] => Option.none
    | a :: _ => some (r, a)

/-- All processed (result, alternative) pairs of a response sequence. -/
def processedOf (rs : List RecResponse) : List (RecResult × RecAlternative) :=
  rs.filterMap firstAlt

/-- `corrected_time`, source lines 225-226:
`result_end_time - bridging_offset + STREAMING_LIMIT * restart_counter`. -/
def correctedTime (b : ℤ) (c : ℕ) (r : RecResult) : ℤ :=
  resultEndTimeMs r - b + (STREAMING_LIMIT : ℤ) * (c : ℤ)

/-- The state threaded through `listen_print_loop`: the stream fields plus the
two local accumulator lists `all_transcripts` and `all_final_transcripts`. -/
structure LoopState where
  stream : StreamState
  all_transcripts : List Entry
  all_final_transcripts : List Entry
deriving DecidableEq

/-- Processing of one response inside `listen_print_loop`, source lines
193-240: skip responses with no results or no alternatives; otherwise set
`result_end_time`, compute `corrected_time`, and append one entry to
`all_final_transcripts` (also updating `is_final_end_time` and setting
`last_transcript_was_final`) or to `all_transcripts`. -/
def listenStep (st : LoopState) (resp : RecResponse) : LoopState :=
  match firstAlt resp with
  | Option.none => st
  | some (r, a) =>
    let ret := resultEndTimeMs r
    let ct := correctedTime st.stream.bridging_offset st.stream.restart_counter r
    if r.is_final then
      { stream := { st.stream with
          result_end_time := ret
          is_final_end_time := ret
          last_transcript_was_final := true }
        all_transcripts := st.all_transcripts
        all_final_transcripts := st.all_final_transcripts ++ [⟨ct, a.transcript⟩] }
    else
      { stream := { st.stream with
          result_end_time := ret
          last_transcript_was_final := false }
        all_transcripts := st.all_transcripts ++ [⟨ct, a.transcript⟩]
        all_final_transcripts := st.all_final_transcripts }

/-- The `for response in responses` loop of `listen_print_loop` over the
responses processed before the loop ends (time-limit break, stream end, or the
point where `DeadlineExceeded` is raised). -/
def listenFold (st : LoopState) (rs : List RecResponse) : LoopState :=
  rs.foldl listenStep st

/-- The output block of `listen_print_loop`, source lines 242-251: write the
last final transcript if any final was seen, else the last interim transcript
if any, else nothing. -/
def emittedOutput (st : LoopState) : List Entry :=
  match st.all_final_transcripts.getLast? with
  | some e => [e]
  | Option.none =>
    match st.all_transcripts.getLast? with
    | some e => [e]
    | Option.none => []

/-- `listen_print_loop` for one session, source lines 164-251: fold the
processed responses from empty accumulators, then emit. Returns the final
loop state and the entries written to the consumer (stdout). -/
def listen_print_loop (s : StreamState) (rs : List RecResponse) :
    LoopState × List Entry :=
  let st := listenFold ⟨s, [], []⟩ rs
  (st, emittedOutput st)

/-- How one iteration of the `while not stream.closed` loop in `main` ends:
`timeLimit` covers the normal return of `listen_print_loop` (response stream
exhausted, queue closed, or the in-loop `STREAMING_LIMIT` break — all fall
through to the reset block, lines 328-339); `deadlineExceeded` is the
`except DeadlineExceeded: continue` at lines 321-323; `interrupt` is the
`except KeyboardInterrupt: stream.__exit__(); break` at lines 324-326. -/
inductive SessionEnd where
  | timeLimit
  | deadlineExceeded
  | interrupt
deriving DecidableEq

/-- The body of one `main` loop iteration up to (not including) the reset
block, source lines 293-326: clear `audio_input` (line 305), run the
`generator` bridging head (new session start), capture `captured` chunks into
`audio_input` during the session, and process the session's responses with
`listen_print_loop`.  Returns the stream state at the moment the session
ends. -/
def sessionBody (s : StreamState) (captured : List Item)
    (rs : List RecResponse) : StreamState :=
  let s1 := (generatorHead { s with audio_input := [] }).1
  let s2 := { s1 with audio_input := captured }
  (listenFold ⟨s2, [], []⟩ rs).stream

/-- The reset block of `main`, source lines 328-339, reached only when
`listen_print_loop` returns normally: conditionally publish
`final_request_end_time`, zero `result_end_time`, rotate
`last_audio_input ← audio_input`, clear `audio_input`, bump
`restart_counter`, and set `new_stream`. -/
def sessionReset (s : StreamState) : StreamState :=
  { s with
    final_request_end_time :=
      if 0 < s.result_end_time then s.is_final_end_time
      else s.final_request_end_time
    result_end_time := 0
    last_audio_input := s.audio_input
    audio_input := []
    restart_counter := s.restart_counter + 1
    new_stream := true }

/-- One full iteration of the `main` loop: the session body, then the reset
block — but only when the session ended normally.  `continue` on
`DeadlineExceeded` and `break` on `KeyboardInterrupt` both skip the reset
block entirely. -/
def mainIteration (s : StreamState) (captured : List Item)
    (rs : List RecResponse) : SessionEnd → StreamState
  | .timeLimit => sessionReset (sessionBody s captured rs)
  | .deadlineExceeded => sessionBody s captured rs
  | .interrupt => sessionBody s captured rs

/-- A response carrying a single final result with one alternative, ending at
`sec` seconds (used to evaluate the model at concrete inputs). -/
def finalResp (t : String) (sec : ℕ) : RecResponse :=
  ⟨[⟨[⟨t⟩], true, sec, 0⟩]⟩

/-! ## Helper lemmas -/

/-- Lower bound of bankers' rounding: `pyRound x` is within one half below. -/
theorem pyRound_ge (x : ℚ) : x - 1/2 ≤ (pyRound x : ℚ) := by
  unfold pyRound
  have h0 : (⌊x⌋ : ℚ) ≤ x := Int.floor_le x
  have h1 : x < ⌊x⌋ + 1 := Int.lt_floor_add_one x
  split_ifs with h h' h'' <;> push_cast <;> linarith

/-- Upper bound of bankers' rounding: `pyRound x` is within one half above. -/
theorem pyRound_le (x : ℚ) : (pyRound x : ℚ) ≤ x + 1/2 := by
  unfold pyRound
  have h0 : (⌊x⌋ : ℚ) ≤ x := Int.floor_le x
  have h1 : x < ⌊x⌋ + 1 := Int.lt_floor_add_one x
  split_ifs with h h' h'' <;> push_cast <;> linarith

/-- `pyRound` is the identity on integers. -/
theorem pyRound_intCast (n : ℤ) : pyRound (n : ℚ) = n := by
  unfold pyRound
  rw [Int.floor_intCast]
  norm_num

/-- A non-empty `last_audio_input` gives a strictly positive chunk duration,
so the source's `chunk_time != 0` guard always takes the `True` branch. -/
theorem chunkTimeMs_pos (l : List Item) (h : l ≠ []) : 0 < chunkTimeMs l := by
  unfold chunkTimeMs
  apply div_pos
  · norm_num [STREAMING_LIMIT]
  · exact_mod_cast List.length_pos.mpr h

/-- Unfolding of `computeBridge` on a non-empty `last_audio_input`. -/
theorem computeBridge_eq (l : List Item) (f b0 : ℤ) (h : l ≠ []) :
    computeBridge l f b0 =
      (pyRound (((l.length : ℚ) -
          ((pyRound (((f : ℚ) - ((clampBridging b0 f : ℤ) : ℚ)) / chunkTimeMs l) : ℤ) : ℚ))
            * chunkTimeMs l),
       pyRound (((f : ℚ) - ((clampBridging b0 f : ℤ) : ℚ)) / chunkTimeMs l),
       l.drop (pyRound (((f : ℚ) - ((clampBridging b0 f : ℤ) : ℚ)) / chunkTimeMs l)).toNat) := by
  have hct : chunkTimeMs l ≠ 0 := ne_of_gt (chunkTimeMs_pos l h)
  simp only [computeBridge]
  rw [if_neg hct]

/-! ## Claim theorems -/

/-- C1: when a replay is computed for a new session (non-empty `lastAudio`),
the replayed chunks are exactly the suffix of `last_audio_input` starting at
index `chunks_from_ms = round((final_request_end_time - bridging_offset) /
chunk_time)` (with `bridging_offset` the clamped value of source lines
115-121); and no chunk lying entirely at or before the finalized point is
replayed: chunk `i` of `last_audio_input` occupies the session-relative
interval `[b + i*ct, b + (i+1)*ct]` (the previous session began with `b` ms
of replayed audio), and every replayed chunk has session-relative end time
strictly greater than `final_request_end_time`. -/
theorem replay_is_unfinalized_suffix (l : List Item) (f b0 : ℤ) (hl : l ≠ []) :
    (computeBridge l f b0).2.2 =
      l.drop (pyRound (((f : ℚ) - ((clampBridging b0 f : ℤ) : ℚ)) / chunkTimeMs l)).toNat ∧
    ∀ i : ℕ,
      (pyRound (((f : ℚ) - ((clampBridging b0 f : ℤ) : ℚ)) / chunkTimeMs l)).toNat ≤ i →
      i < l.length →
      ((f : ℤ) : ℚ) < ((clampBridging b0 f : ℤ) : ℚ) + ((i : ℚ) + 1) * chunkTimeMs l := by
  have hct : 0 < chunkTimeMs l := chunkTimeMs_pos l hl
  constructor
  · rw [computeBridge_eq l f b0 hl]
  · intro i hi hlen
    set ct := chunkTimeMs l with hctdef
    set b : ℤ := clampBridging b0 f with hbdef
    set x : ℚ := ((f : ℚ) - (b : ℚ)) / ct with hxdef
    have hx : x - 1/2 ≤ (pyRound x : ℚ) := pyRound_ge x
    have hcast : (pyRound x : ℚ) ≤ (i : ℚ) := by
      have h1 : (pyRound x : ℤ) ≤ ((pyRound x).toNat : ℤ) := Int.self_le_toNat _
      have h2 : (((pyRound x).toNat : ℕ) : ℤ) ≤ (i : ℤ) := by exact_mod_cast hi
      exact_mod_cast le_trans h1 h2
    have hmul : x * ct = (f : ℚ) - (b : ℚ) := div_mul_cancel₀ _ (ne_of_gt hct)
    have key : 0 < ((i : ℚ) + 1 - x) * ct := by
      apply mul_pos _ hct
      linarith
    nlinarith [key, hmul]

/-- Witness for C1 at `lastAudio = [some 0]`, `F = 0`, `B = 0`: the whole
list is replayed and the single chunk ends strictly after the finalized
point. -/
theorem replay_is_unfinalized_suffix_witness :
    ((computeBridge [some 0] 0 0).2.2 =
      List.drop (pyRound ((((0 : ℤ) : ℚ) - ((clampBridging 0 0 : ℤ) : ℚ)) /
        chunkTimeMs [some 0])).toNat [some 0]) ∧
    (((0 : ℤ) : ℚ) < ((clampBridging 0 0 : ℤ) : ℚ) +
      (((0 : ℕ) : ℚ) + 1) * chunkTimeMs [some 0]) := by
  have h := replay_is_unfinalized_suffix [some 0] 0 0 (by decide)
  exact ⟨h.1, h.2 0 (by norm_num [clampBridging, chunkTimeMs, pyRound]) (by decide)⟩

/-- C2: Scenario A.  With 100 chunks in `last_audio_input`,
`final_request_end_time = 9400` and `bridging_offset = 0`, the bridging
computation yields `chunks_from_ms = round((9400-0)/100) = 94`, replays
exactly `last_audio_input[94:]` (indices 94..99, 6 chunks, 600 ms), and
updates `bridging_offset` to `round((100-94)*100) = 600`. -/
theorem bridging_scenario_A (l : List Item) (h : l.length = 100) :
    computeBridge l 9400 0 = (600, 94, l.drop 94) := by
  have hl : l ≠ [] := by
    intro hnil
    rw [hnil] at h
    simp at h
  have hct : chunkTimeMs l = 100 := by
    unfold chunkTimeMs STREAMING_LIMIT
    rw [h]
    norm_num
  have hclamp : clampBridging 0 9400 = 0 := by decide
  rw [computeBridge_eq l 9400 0 hl, hct, hclamp]
  have e1 : (((9400 : ℤ) : ℚ) - (((0 : ℤ)) : ℚ)) / 100 = ((94 : ℤ) : ℚ) := by norm_num
  rw [e1, pyRound_intCast]
  have e2 : ((l.length : ℚ) - (((94 : ℤ)) : ℚ)) * 100 = ((600 : ℤ) : ℚ) := by
    rw [h]
    norm_num
  rw [e2, pyRound_intCast]
  rfl

/-- Witness for C2 on a concrete 100-chunk list. -/
theorem bridging_scenario_A_witness :
    computeBridge (List.replicate 100 (some 0)) 9400 0 =
      (600, 94, (List.replicate 100 (some 0)).drop 94) :=
  bridging_scenario_A (List.replicate 100 (some 0)) (by simp)

/-- C5 counterexample: the *recomputation* of `bridging_offset` at source
lines 128-130 is an update of `bridgingOffsetMs` that leaves the claimed
interval.  With `final_request_end_time = 100`, incoming `bridging_offset =
0`, and 100 chunks of previous audio, the computation sets
`bridging_offset = round((100 - round(100/100)) * 100) = 9900`, which is far
above `final_request_end_time = 100`. -/
theorem bridging_update_escapes_bounds :
    (computeBridge (List.replicate 100 (some 0)) 100 0).1 = 9900 ∧
    ¬ ((computeBridge (List.replicate 100 (some 0)) 100 0).1 ≤ 100) := by
  have h : (List.replicate 100 (some 0) : List Item).length = 100 := by simp
  have hl : (List.replicate 100 (some 0) : List Item) ≠ [] := by simp
  have hct : chunkTimeMs (List.replicate 100 (some 0)) = 100 := by
    unfold chunkTimeMs STREAMING_LIMIT
    rw [h]
    norm_num
  have hclamp : clampBridging 0 100 = 0 := by decide
  have hmain : (computeBridge (List.replicate 100 (some 0)) 100 0).1 = 9900 := by
    rw [computeBridge_eq _ 100 0 hl, hct, hclamp]
    have e1 : (((100 : ℤ) : ℚ) - (((0 : ℤ)) : ℚ)) / 100 = ((1 : ℤ) : ℚ) := by norm_num
    rw [e1, pyRound_intCast]
    have e2 : (((List.replicate 100 (some 0) : List Item).length : ℚ) - (((1 : ℤ)) : ℚ)) * 100
        = ((9900 : ℤ) : ℚ) := by
      rw [h]
      norm_num
    rw [e2, pyRound_intCast]
  refine ⟨hmain, ?_⟩
  rw [hmain]
  norm_num

/-- C5 amended: after the two clamping assignments of source lines 115-121
(and given a non-negative `final_request_end_time`, which holds in every
reachable state), `bridging_offset` lies in `[0, final_request_end_time]`;
the subsequent recomputation at lines 128-130 is *not* bounded by that
interval (see the counterexample). -/
theorem bridging_clamped_in_bounds (b f : ℤ) (hf : 0 ≤ f) :
    0 ≤ clampBridging b f ∧ clampBridging b f ≤ f := by
  simp only [clampBridging]
  split_ifs <;> omega

/-- Witness for the amended C5 at `b = -5`, `f = 10`. -/
theorem bridging_clamped_in_bounds_witness :
    0 ≤ clampBridging (-5) 10 ∧ clampBridging (-5) 10 ≤ 10 :=
  bridging_clamped_in_bounds (-5) 10 (by decide)

/-- C7: if `last_audio_input` is empty, or the computed per-chunk duration is
0, the generator selects no replay chunks; and whenever the division
`STREAMING_LIMIT / len(last_audio_input)` is actually reached (non-empty
list), its divisor is non-zero, so no division by zero occurs. -/
theorem division_guard (s : StreamState)
    (h : s.last_audio_input = [] ∨ chunkTimeMs s.last_audio_input = 0) :
    (generatorHead s).2 = [] ∧
      (s.last_audio_input ≠ [] → ((s.last_audio_input.length : ℚ) ≠ 0)) := by
  constructor
  · rcases h with h | h
    · simp [generatorHead, h]
    · by_cases hg : s.new_stream ∧ s.last_audio_input ≠ []
      · simp [generatorHead, hg, computeBridge, h]
      · simp [generatorHead, hg]
  · intro hne
    exact Nat.cast_ne_zero.mpr (List.length_pos.mpr hne).ne'

/-- Witness for C7 at the initial state (empty `last_audio_input`). -/
theorem division_guard_witness :
    (generatorHead initialState).2 = [] ∧
      (initialState.last_audio_input ≠ [] →
        ((initialState.last_audio_input.length : ℚ) ≠ 0)) :=
  division_guard initialState (Or.inl rfl)

/-- C8 counterexample: the chunk queue is a plain FIFO, so the close sentinel
is delivered exactly once: the pop after it finds the queue empty and blocks
(`qpop [] = Option.none`: no item is returned at all, rather than the close
signal again), and a pop after any later push returns that item, not the
close signal.  The "subsequent pops return close immediately" half of the
claim therefore fails; the generator compensates by never popping again
(`return` on the sentinel, and `closed` stops its loop). -/
theorem queue_close_not_idempotent :
    qpop [(Option.none : Item)] = some (Option.none, []) ∧
    qpop ([] : List Item) = Option.none ∧
    qpop [(some 7 : Item)] = some (some 7, []) ∧ (some 7 : Item) ≠ Option.none := by
  decide

/-- The inner non-blocking drain keeps every chunk that precedes the close
sentinel: they are all appended to `audio_input` in order, and the sentinel
itself is consumed (but not appended, as its `None` check precedes the
appends). -/
theorem drainBuffered_no_drop (ps : List ℕ) (post audio data : List Item) :
    drainBuffered audio data (ps.map some ++ (Option.none : Item) :: post) =
      .terminated (audio ++ ps.map some) post := by
  induction ps generalizing audio data with
  | nil => simp [drainBuffered]
  | cons p ps ih =>
    show drainBuffered (audio ++ [some p]) (data ++ [some p])
        (ps.map some ++ (Option.none : Item) :: post) =
      .terminated (audio ++ (some p :: ps.map some)) post
    rw [ih]
    simp

/-- C8 amended: the queue preserves FIFO order and the generator batch that
meets the close sentinel appends every chunk pushed before the sentinel to
`audio_input` (no captured chunk preceding the close signal is dropped),
consumes the sentinel exactly once, and stops; when the sentinel is the very
first item popped (blocking `get`), the sentinel itself is also appended.
The close signal is *not* re-delivered by later pops (see the
counterexample). -/
theorem queue_fifo_no_chunk_dropped (pre : List ℕ) (post audio data : List Item) :
    runBatch audio data (pre.map some ++ (Option.none : Item) :: post) =
      .terminated (audio ++ (if pre = [] then [(Option.none : Item)] else pre.map some)) post := by
  cases pre with
  | nil => simp [runBatch]
  | cons p ps =>
    simp only [List.map_cons, List.cons_append, runBatch, drainBuffered_no_drop]
    simp

/-- C10 counterexample: when the close sentinel is popped by the *inner
non-blocking* drain (here: queue holds a chunk then the sentinel at the start
of a batch), the sentinel is not appended to `audio_input`: the buffer ends
with the last real audio chunk, not the sentinel. -/
theorem sentinel_not_appended_in_drain :
    runBatch [] [] [(some 3 : Item), Option.none] =
      .terminated [some 3] [] ∧ (some 3 : Item) ≠ Option.none := by
  decide

/-- C10 amended: only when the close sentinel is popped by the *blocking*
`get()` at the start of a batch (source lines 140-144, where the append
precedes the `None` check) is the sentinel appended to `audio_input` before
the generator returns, making it the buffer's last element; a sentinel popped
by the inner drain is not appended (see the counterexample). -/
theorem sentinel_appended_on_blocking_pop (audio data rest : List Item) :
    runBatch audio data ((Option.none : Item) :: rest) =
      .terminated (audio ++ [(Option.none : Item)]) rest ∧
    (audio ++ [(Option.none : Item)]).getLast? = some (Option.none : Item) := by
  exact ⟨rfl, List.getLast?_concat audio⟩

/-- `listenStep` never touches `bridging_offset`, `restart_counter`,
`audio_input`, `last_audio_input`, `final_request_end_time` or `new_stream`. -/
theorem listenStep_fields (st : LoopState) (resp : RecResponse) :
    (listenStep st resp).stream.bridging_offset = st.stream.bridging_offset ∧
    (listenStep st resp).stream.restart_counter = st.stream.restart_counter ∧
    (listenStep st resp).stream.audio_input = st.stream.audio_input ∧
    (listenStep st resp).stream.last_audio_input = st.stream.last_audio_input ∧
    (listenStep st resp).stream.final_request_end_time = st.stream.final_request_end_time ∧
    (listenStep st resp).stream.new_stream = st.stream.new_stream := by
  unfold listenStep
  cases hfa : firstAlt resp with
  | none => simp
  | some p =>
    obtain ⟨r, a⟩ := p
    cases hf : r.is_final <;> simp [hf]

/-- One `listenStep` appends exactly the entries of the processed result of
its response (empty when the response is skipped), with the corrected time
computed from the current `bridging_offset` and `restart_counter`. -/
theorem listenStep_accum (st : LoopState) (resp : RecResponse) :
    (listenStep st resp).all_final_transcripts = st.all_final_transcripts ++
      ((processedOf [resp]).filter (fun p => p.1.is_final)).map
        (fun p => (⟨correctedTime st.stream.bridging_offset st.stream.restart_counter p.1,
          p.2.transcript⟩ : Entry)) ∧
    (listenStep st resp).all_transcripts = st.all_transcripts ++
      ((processedOf [resp]).filter (fun p => !p.1.is_final)).map
        (fun p => (⟨correctedTime st.stream.bridging_offset st.stream.restart_counter p.1,
          p.2.transcript⟩ : Entry)) := by
  unfold listenStep processedOf
  cases hfa : firstAlt resp with
  | none => simp [List.filterMap_cons, hfa]
  | some p =>
    obtain ⟨r, a⟩ := p
    cases hf : r.is_final <;> simp [List.filterMap_cons, hfa, hf]

/-- The response fold of `listen_print_loop` preserves the stream fields it
never writes. -/
theorem listenFold_stream_fields (rs : List RecResponse) (st : LoopState) :
    (listenFold st rs).stream.bridging_offset = st.stream.bridging_offset ∧
    (listenFold st rs).stream.restart_counter = st.stream.restart_counter ∧
    (listenFold st rs).stream.audio_input = st.stream.audio_input ∧
    (listenFold st rs).stream.last_audio_input = st.stream.last_audio_input ∧
    (listenFold st rs).stream.final_request_end_time = st.stream.final_request_end_time ∧
    (listenFold st rs).stream.new_stream = st.stream.new_stream := by
  induction rs generalizing st with
  | nil => simp [listenFold]
  | cons resp rs ih =>
    have hfold : listenFold st (resp :: rs) = listenFold (listenStep st resp) rs := rfl
    obtain ⟨s1, s2, s3, s4, s5, s6⟩ := listenStep_fields st resp
    obtain ⟨f1, f2, f3, f4, f5, f6⟩ := ih (listenStep st resp)
    rw [hfold]
    exact ⟨f1.trans s1, f2.trans s2, f3.trans s3, f4.trans s4, f5.trans s5, f6.trans s6⟩

/-- The response fold appends one entry per processed result, in receipt
order, to `all_final_transcripts` (final results) and `all_transcripts`
(interim results), all stamped with the corrected time computed from the
fold-initial `bridging_offset` and `restart_counter`. -/
theorem listenFold_transcripts (rs : List RecResponse) (st : LoopState) :
    (listenFold st rs).all_final_transcripts = st.all_final_transcripts ++
      ((processedOf rs).filter (fun p => p.1.is_final)).map
        (fun p => (⟨correctedTime st.stream.bridging_offset st.stream.restart_counter p.1,
          p.2.transcript⟩ : Entry)) ∧
    (listenFold st rs).all_transcripts = st.all_transcripts ++
      ((processedOf rs).filter (fun p => !p.1.is_final)).map
        (fun p => (⟨correctedTime st.stream.bridging_offset st.stream.restart_counter p.1,
          p.2.transcript⟩ : Entry)) := by
  induction rs generalizing st with
  | nil => simp [listenFold, processedOf]
  | cons resp rs ih =>
    have hfold : listenFold st (resp :: rs) = listenFold (listenStep st resp) rs := rfl
    obtain ⟨s1, s2, _, _, _, _⟩ := listenStep_fields st resp
    obtain ⟨a1, a2⟩ := listenStep_accum st resp
    obtain ⟨f1, f2⟩ := ih (listenStep st resp)
    have hproc : processedOf (resp :: rs) = processedOf [resp] ++ processedOf rs := by
      simp [processedOf, List.filterMap_cons]
      cases firstAlt resp <;> simp
    rw [hfold]
    constructor
    · rw [f1, s1, s2, a1, hproc]
      simp [List.filter_append, List.map_append, List.append_assoc]
    · rw [f2, s1, s2, a2, hproc]
      simp [List.filter_append, List.map_append, List.append_assoc]

/-- C6: for every recognition result processed by `listen_print_loop` (first
result of its response, non-empty alternatives), the timestamp stored with
the transcript is `corrected_time = result_end_time - bridging_offset +
STREAMING_LIMIT * restart_counter`, with `bridging_offset` and
`restart_counter` taken from the stream state of the session (the loop never
mutates them): the two transcript lists are exactly the processed results,
each stamped with that formula. -/
theorem corrected_time_formula (s : StreamState) (rs : List RecResponse) :
    (listen_print_loop s rs).1.all_final_transcripts =
      ((processedOf rs).filter (fun p => p.1.is_final)).map
        (fun p => (⟨resultEndTimeMs p.1 - s.bridging_offset +
          (STREAMING_LIMIT : ℤ) * (s.restart_counter : ℤ), p.2.transcript⟩ : Entry)) ∧
    (listen_print_loop s rs).1.all_transcripts =
      ((processedOf rs).filter (fun p => !p.1.is_final)).map
        (fun p => (⟨resultEndTimeMs p.1 - s.bridging_offset +
          (STREAMING_LIMIT : ℤ) * (s.restart_counter : ℤ), p.2.transcript⟩ : Entry)) := by
  obtain ⟨h1, h2⟩ := listenFold_transcripts rs ⟨s, [], []⟩
  exact ⟨by simpa [listen_print_loop, correctedTime] using h1,
         by simpa [listen_print_loop, correctedTime] using h2⟩

/-- Splitting a list by a predicate preserves total length. -/
theorem filter_length_split {α : Type} (p : α → Bool) (l : List α) :
    (l.filter p).length + (l.filter (fun x => !p x)).length = l.length := by
  induction l with
  | nil => simp
  | cons x xs ih => cases h : p x <;> simp [List.filter_cons, h] <;> omega

/-- The output block emits at most one entry, drawn from the accumulators. -/
theorem emittedOutput_le_one (st : LoopState) :
    (emittedOutput st).length ≤ 1 ∧
    emittedOutput st ⊆ st.all_final_transcripts ++ st.all_transcripts := by
  unfold emittedOutput
  cases hf : st.all_final_transcripts.getLast? with
  | some e =>
    refine ⟨by simp, ?_⟩
    intro x hx
    simp only [List.mem_singleton] at hx
    subst hx
    exact List.mem_append_left _ (List.mem_of_mem_getLast? hf)
  | none =>
    cases hi : st.all_transcripts.getLast? with
    | some e =>
      refine ⟨by simp, ?_⟩
      intro x hx
      simp only [List.mem_singleton] at hx
      subst hx
      exact List.mem_append_right _ (List.mem_of_mem_getLast? hi)
    | none => exact ⟨by simp, by simp⟩

/-- C9 counterexample: a session whose response stream carries two final
results (both with non-empty alternatives) produces exactly one event on the
consumer side — only the last final transcript is written (source lines
242-246) — not one event per processed result. -/
theorem single_emission_counterexample :
    (processedOf [finalResp "a" 1, finalResp "b" 2]).length = 2 ∧
    (listen_print_loop initialState [finalResp "a" 1, finalResp "b" 2]).2 =
      [⟨2000, "b"⟩] ∧
    ¬ ((listen_print_loop initialState [finalResp "a" 1, finalResp "b" 2]).2.length =
        (processedOf [finalResp "a" 1, finalResp "b" 2]).length) := by
  decide

/-- C9 amended: one entry per processed result is appended, in receipt order,
to the session-local transcript lists (finals to `all_final_transcripts`,
interims to `all_transcripts`, cf. `corrected_time_formula`), but at most one
event per session is emitted to the consumer: the last final transcript if
any final result was processed, else the last interim transcript. -/
theorem one_entry_per_result_single_emission (s : StreamState) (rs : List RecResponse) :
    (listen_print_loop s rs).1.all_final_transcripts.length +
      (listen_print_loop s rs).1.all_transcripts.length = (processedOf rs).length ∧
    (listen_print_loop s rs).2.length ≤ 1 ∧
    (listen_print_loop s rs).2 ⊆
      (listen_print_loop s rs).1.all_final_transcripts ++
        (listen_print_loop s rs).1.all_transcripts := by
  obtain ⟨h1, h2⟩ := listenFold_transcripts rs ⟨s, [], []⟩
  obtain ⟨e1, e2⟩ := emittedOutput_le_one (listenFold ⟨s, [], []⟩ rs)
  refine ⟨?_, e1, e2⟩
  have hf : (listen_print_loop s rs).1 = listenFold ⟨s, [], []⟩ rs := rfl
  rw [hf, h1, h2]
  simp only [List.nil_append, List.length_map]
  exact filter_length_split _ _

/-- The `generator` bridging head only writes `bridging_offset` and
`new_stream`. -/
theorem generatorHead_fields (t : StreamState) :
    (generatorHead t).1.restart_counter = t.restart_counter ∧
    (generatorHead t).1.audio_input = t.audio_input ∧
    (generatorHead t).1.last_audio_input = t.last_audio_input ∧
    (generatorHead t).1.final_request_end_time = t.final_request_end_time := by
  unfold generatorHead
  split_ifs <;> simp

/-- The session body leaves `restart_counter`, `last_audio_input` and
`final_request_end_time` untouched, and ends with `audio_input` holding
exactly the session's captured chunks. -/
theorem sessionBody_fields (s : StreamState) (c : List Item) (rs : List RecResponse) :
    (sessionBody s c rs).restart_counter = s.restart_counter ∧
    (sessionBody s c rs).audio_input = c ∧
    (sessionBody s c rs).last_audio_input = s.last_audio_input ∧
    (sessionBody s c rs).final_request_end_time = s.final_request_end_time := by
  obtain ⟨g1, g2, g3, g4⟩ := generatorHead_fields { s with audio_input := [] }
  obtain ⟨_, f2, f3, f4, f5, _⟩ :=
    listenFold_stream_fields rs
      ⟨{ (generatorHead { s with audio_input := [] }).1 with audio_input := c }, [], []⟩
  exact ⟨f2.trans g1, f3, f4.trans g3, f5.trans g4⟩

/-- C3 corrected: `restart_counter` is incremented by exactly 1 when the
session ends normally (time limit, stream end, queue closure — all reach the
reset block), but a session ended by `DeadlineExceeded` (`continue`) or
`KeyboardInterrupt` (`break`) skips the reset block, leaving
`restart_counter` unchanged. -/
theorem restart_counter_per_session_end (s : StreamState) (c : List Item)
    (rs : List RecResponse) :
    (mainIteration s c rs .timeLimit).restart_counter = s.restart_counter + 1 ∧
    (mainIteration s c rs .deadlineExceeded).restart_counter = s.restart_counter ∧
    (mainIteration s c rs .interrupt).restart_counter = s.restart_counter := by
  obtain ⟨h1, _, _, _⟩ := sessionBody_fields s c rs
  refine ⟨?_, h1, h1⟩
  simp [mainIteration, sessionReset, h1]

/-- C3 counterexample: a session ended by `DeadlineExceeded` does not
increment `restart_counter` (the `continue` at source lines 321-323 skips
line 335). -/
theorem deadline_exceeded_no_increment :
    ¬ ((mainIteration initialState [] [] .deadlineExceeded).restart_counter =
        initialState.restart_counter + 1) := by
  decide

/-- C4 corrected: at a *normal* session end the controller rotates
`last_audio_input ← audio_input` (the session's captured chunks), resets
`audio_input` to empty, and publishes `final_request_end_time ←
is_final_end_time` exactly when a result was observed
(`result_end_time > 0`); but a session ended by `DeadlineExceeded` performs
none of this bookkeeping: `last_audio_input` is unchanged and the captured
audio is still sitting in `audio_input` (to be discarded by line 305 of the
next iteration). -/
theorem session_end_rotation (s : StreamState) (c : List Item) (rs : List RecResponse) :
    (mainIteration s c rs .timeLimit).last_audio_input = c ∧
    (mainIteration s c rs .timeLimit).audio_input = [] ∧
    (mainIteration s c rs .timeLimit).final_request_end_time =
      (if 0 < (sessionBody s c rs).result_end_time
       then (sessionBody s c rs).is_final_end_time
       else s.final_request_end_time) ∧
    (mainIteration s c rs .deadlineExceeded).last_audio_input = s.last_audio_input ∧
    (mainIteration s c rs .deadlineExceeded).audio_input = c := by
  obtain ⟨_, h2, h3, h4⟩ := sessionBody_fields s c rs
  refine ⟨?_, ?_, ?_, h3, h2⟩
  · simp [mainIteration, sessionReset, h2]
  · simp [mainIteration, sessionReset]
  · simp [mainIteration, sessionReset, h4]

/-- C4 counterexample: with captured audio `[some 1]` and a
`DeadlineExceeded` ending, `last_audio_input` is not rotated to the captured
audio (it stays empty). -/
theorem deadline_exceeded_no_rotation :
    ¬ ((mainIteration initialState [some 1] [] .deadlineExceeded).last_audio_input =
        [some 1]) := by
  decide
